import Mathlib

/-!
Shallow embedding of the debate orchestration protocol of
`src/srcipts/orchestrator.py` (class `DebateOrchestrator`, method `run_debate`),
together with the data model it consumes.

Modeling conventions:
* Python values obtained from `json.loads` are modeled by the inductive `Json`.
* `json.loads` is modeled by a function parameter `loads : String → Option Json`
  (`none` models a raised `json.JSONDecodeError`); the persona calls
  (`_execute_single_turn_chat`) are modeled by a response oracle
  `resp : Nat → Role → String → String` giving the response text of the n-th
  single-turn chat of the debate, for the given recipient role and prompt.
  Both are external collaborators of the orchestrator (the json standard
  library and the autogen LLM boundary), so they are parameters of the
  embedding, bundled in `Env`.
* Python runtime errors that `run_debate` does not catch (`TypeError`,
  `KeyError`) are modeled by `Except PyErr`; a normal `return` is `Except.ok`.
* Python `dict`s built by the orchestrator are insertion-ordered association
  lists `List (String × Json)`; all keys inserted by the orchestrator are
  pairwise distinct, so plain appending reproduces `d[k] = v`.
-/

/-- Python values decodable from JSON: `None`, `bool`, numbers, `str`,
`list`, `dict`.  Numbers are modeled as integers (no claim depends on
floats). -/
inductive Json where
  | null
  | bool (b : Bool)
  | num (n : Int)
  | str (s : String)
  | arr (elems : List Json)
  | obj (entries : List (String × Json))

/-- Uncaught Python runtime errors that can escape `run_debate`:
`TypeError` (from `key in x` on a non-container, or `x[key]` with a string
key on a non-dict) and `KeyError` (from `x[key]` on a dict missing `key`;
unreachable in `run_debate` because indexing is always guarded by `in`). -/
inductive PyErr where
  | typeError
  | keyError
deriving DecidableEq, Repr

mutual

/-- Models `json.dumps(x, indent=2)` as used for embedding structured values
into prompt text.  The exact whitespace produced by `indent=2` is not
reproduced (no claim depends on prompt text); key order and content are. -/
def Json.dumps : Json → String
  | Json.null => "null"
  | Json.bool b => cond b ("true") ("false")
  | Json.num n => toString n
  | Json.str s => "\"" ++ s ++ "\""
  | Json.arr xs => "[" ++ Json.dumpsArr xs ++ "]"
  | Json.obj kvs => "\x7b" ++ Json.dumpsObj kvs ++ "\x7d"

/-- Serialization of the element list of a JSON array. -/
def Json.dumpsArr : List Json → String
  | [] => ""
  | [x] => Json.dumps x
  | x :: y :: rest => Json.dumps x ++ ", " ++ Json.dumpsArr (y :: rest)

/-- Serialization of the entry list of a JSON object. -/
def Json.dumpsObj : List (String × Json) → String
  | [] => ""
  | [(k, v)] => "\"" ++ k ++ "\": " ++ Json.dumps v
  | (k, v) :: e :: rest =>
    "\"" ++ k ++ "\": " ++ Json.dumps v ++ ", " ++ Json.dumpsObj (e :: rest)

end

/-- Models Python `str(x)` for a `Json` value, used by f-string interpolation
of `challenges[challenge_key]` into the rebuttal prompt.  For the expected
case (a string challenge) this is exact; for container values Python would
use `repr`-style quoting, which is approximated by `dumps` (no claim depends
on prompt text). -/
def pyStr : Json → String
  | Json.str s => s
  | j => Json.dumps j

/-- Models the Python substring test `needle in hay` on strings. -/
def pySubstr (needle hay : String) : Bool :=
  needle.length == 0 || (hay.splitOn needle).length ≥ 2

/-- Models `key in d` for a Python `dict` given as an association list:
membership among the keys. -/
def dictMem (key : String) (kvs : List (String × Json)) : Bool :=
  kvs.any (fun kv => kv.fst == key)

/-- Models `d.get(key, default)` for a Python `dict`. -/
def dictGetD (kvs : List (String × Json)) (key : String) (default : Json) : Json :=
  match kvs.lookup key with
  | some v => v
  | none => default

/-- Models the Python expression `key in x` for a string `key` and a value
`x` obtained from `json.loads`: key membership for a dict, element equality
for a list (a string equals only the identical string), substring test for a
string, and a raised `TypeError` for the non-container values. -/
def pyContains (key : String) : Json → Except PyErr Bool
  | Json.obj kvs => Except.ok (dictMem key kvs)
  | Json.arr xs =>
    Except.ok (xs.any (fun e => match e with
      | Json.str s => s == key
      | _ => false))
  | Json.str s => Except.ok (pySubstr key s)
  | _ => Except.error PyErr.typeError

/-- Models the Python expression `x[key]` for a string `key`: dict lookup
(`KeyError` when absent), and a raised `TypeError` for every non-dict value
(list and string indices must be integers). -/
def pyIndex (x : Json) (key : String) : Except PyErr Json :=
  match x with
  | Json.obj kvs =>
    match kvs.lookup key with
    | some v => Except.ok v
    | none => Except.error PyErr.keyError
  | _ => Except.error PyErr.typeError

/-- Modelled from the spec: a source document of a `QueryContext`
(`data_loader.Document`, not present under `src/`); its shape (a dict with
`doc_id` and `text`) is the one `run_debate` reads via `doc['doc_id']` and
`doc['text']`. -/
structure Document where
  doc_id : String
  text : String

/-- Modelled from the spec: the standardized query object produced by
`data_loader.QueryContext` (not present under `src/`): query identifier,
question text, ordered documents, and the evaluation-only gold/wrong answer
sets. -/
structure QueryContext where
  query_id : String
  question : String
  documents : List Document
  gold_answers : List String
  wrong_answers : List String

/-- The three agent personas of `FrameworkAgents`
(`src/srcipts/agent_definitions.py`): `proponent_agent`,
`devils_advocate_agent`, `aggregator_judge_agent`. -/
inductive Role where
  | proponent
  | devilsAdvocate
  | aggregatorJudge
deriving DecidableEq, Repr

/-- The external collaborators of one debate: the response oracle for the
n-th single-turn chat (`_execute_single_turn_chat`) and the JSON decoder
(`json.loads`, `none` modeling a raised `JSONDecodeError`). -/
structure Env where
  resp : Nat → Role → String → String
  loads : String → Option Json

/-- Models the Python f-string `f"agent_{n}"` (seat key of seat number `n`). -/
def agentName (n : Nat) : String :=
  "agent_" ++ toString n

/-- The sentinel record substituted for an unparsable Thesis or Rebuttal
response (orchestrator.py lines 77 and 141):
`{"answer": "JSON PARSE ERROR", "chain_of_thought": [response_str]}`. -/
def sentinel (raw : String) : Json :=
  Json.obj [(("answer"), Json.str ("JSON PARSE ERROR")),
            (("chain_of_thought"), Json.arr [Json.str raw])]

/-- The `try: json.loads(...) except: sentinel` pattern of the Thesis and
Rebuttal phases: the decoded value on success, the sentinel on failure. -/
def decodeOrSentinel (loads : String → Option Json) (raw : String) : Json :=
  match loads raw with
  | some j => j
  | none => sentinel raw

/-- Models `json.dumps(query_context.documents, indent=2)`: the document list
as the list of dicts it is in Python. -/
def documentsJson (docs : List Document) : Json :=
  Json.arr (docs.map (fun d =>
    Json.obj [(("doc_id"), Json.str d.doc_id), (("text"), Json.str d.text)]))

/-- The Thesis prompt of seat `i` (orchestrator.py lines 62-70). -/
def thesisPrompt (question : String) (d : Document) : String :=
  "Here is the query and a single document. Your task is to generate a structured thesis.\n\nQuery: \"" ++
    question ++ "\"\n\nDocument (doc_id: " ++ d.doc_id ++ "):\n---\n" ++
    d.text ++ "\n---\n"

/-- The Antithesis (Devil's Advocate) prompt (orchestrator.py lines 85-96). -/
def challengePrompt (question : String) (opening_statements : List (String × Json))
    (docs : List Document) : String :=
  "Here are the opening statements from multiple Proponent Agents and the full set of source documents. Your task is to act as the Devil's Advocate and generate targeted, evidence-based challenges.\n\nQuery: \"" ++
    question ++ "\"\n\n--- OPENING STATEMENTS ---\n" ++
    Json.dumps (Json.obj opening_statements) ++
    "\n---\n\n--- ALL SOURCE DOCUMENTS ---\n" ++
    Json.dumps (documentsJson docs) ++ "\n---\n"

/-- The Rebuttal prompt of a challenged seat (orchestrator.py lines 117-134). -/
def rebuttalPrompt (question : String) (d : Document) (agent_name : String)
    (opening : Json) (challenge : Json) : String :=
  "You are " ++ agent_name ++
    ". You must formulate a rebuttal to a direct challenge from the Devil's Advocate. Follow the Structured Rebuttal Protocol.\n\nOriginal Query: \"" ++
    question ++ "\"\nYour Assigned Document (doc_id: " ++ d.doc_id ++
    "):\n---\n" ++ d.text ++ "\n---\nYour Opening Statement:\n---\n" ++
    Json.dumps opening ++
    "\n---\nTHE CHALLENGE YOU MUST ADDRESS:\n---\n\"" ++ pyStr challenge ++
    "\"\n---\n\nNow, provide your rebuttal in the required structured JSON format (answer, chain_of_thought).\n"

/-- The Synthesis (Aggregator-Judge) prompt (orchestrator.py lines 148-157). -/
def judgePrompt (question : String) (debate_transcript : Json) : String :=
  "You are the Aggregator-Judge. Below is the full transcript of a debate. Your task is to synthesize this interaction and produce the most logically sound and complete final answer.\n\nOriginal Query: \"" ++
    question ++ "\"\n\n--- DEBATE TRANSCRIPT ---\n" ++
    Json.dumps debate_transcript ++
    "\n---\n\nBased on your analysis of the entire debate, provide the final, synthesized answer in the required JSON format.\n"

/-- Phase 1 loop (orchestrator.py lines 60-77): one Proponent call per
document, in order; seat `i` (0-based position, seat key `agent_{i+1}`) is
the `i`-th chat of the debate.  An unparsable response is replaced by the
sentinel and the loop continues. -/
def thesisAux (env : Env) (question : String) : List Document → Nat → List (String × Json)
  | [], _ => []
  | d :: rest, i =>
    let agent_name := agentName (i + 1)
    let response_str := env.resp i Role.proponent (thesisPrompt question d)
    (agent_name, decodeOrSentinel env.loads response_str) ::
      thesisAux env question rest (i + 1)

/-- The `opening_statements` dict at the end of Phase 1. -/
def openingOf (env : Env) (qc : QueryContext) : List (String × Json) :=
  thesisAux env qc.question qc.documents 0

/-- The Devil's Advocate prompt of the debate (built from the question, the
full `opening_statements` mapping, and the full document list). -/
def challengePromptOf (env : Env) (qc : QueryContext) : String :=
  challengePrompt qc.question (openingOf env qc) qc.documents

/-- The raw Devil's Advocate response text (`challenges_str`); the
Antithesis call is chat number `N` after the `N` Thesis chats. -/
def challengesStrOf (env : Env) (qc : QueryContext) : String :=
  env.resp qc.documents.length Role.devilsAdvocate (challengePromptOf env qc)

/-- Phase 2b loop (orchestrator.py lines 108-141): for each seat in document
order, skip it when `agent_{i}_challenge` is not `in` the decoded challenges
(consuming no chat), otherwise issue one Proponent call and store the decoded
rebuttal (or the sentinel) under the seat key.  `k` is the number of the next
chat of the debate; the result carries the final chat counter. -/
def rebuttalAux (env : Env) (question : String)
    (opening_statements : List (String × Json)) (challenges : Json) :
    List Document → Nat → Nat → Except PyErr (List (String × Json) × Nat)
  | [], _, k => Except.ok ([], k)
  | d :: rest, i, k =>
    let agent_name := agentName (i + 1)
    let challenge_key := agent_name ++ ("_challenge")
    match pyContains challenge_key challenges with
    | Except.error e => Except.error e
    | Except.ok false =>
      rebuttalAux env question opening_statements challenges rest (i + 1) k
    | Except.ok true =>
      match pyIndex challenges challenge_key with
      | Except.error e => Except.error e
      | Except.ok challenge =>
        let prompt := rebuttalPrompt question d agent_name
          (dictGetD opening_statements agent_name (Json.obj [])) challenge
        let rebuttal_str := env.resp k Role.proponent prompt
        match rebuttalAux env question opening_statements challenges rest (i + 1) (k + 1) with
        | Except.error e => Except.error e
        | Except.ok (xs, kf) =>
          Except.ok ((agent_name, decodeOrSentinel env.loads rebuttal_str) :: xs, kf)

/-- The value returned on the Antithesis abort path (orchestrator.py line
103): `{"error": "Failed to parse Devil's Advocate challenges.",
"transcript": {"phase_1_opening_statements": opening_statements}}`. -/
def abortObj (opening_statements : List (String × Json)) : Json :=
  Json.obj [(("error"), Json.str ("Failed to parse Devil's Advocate challenges.")),
            (("transcript"), Json.obj [(("phase_1_opening_statements"),
              Json.obj opening_statements)])]

/-- The `debate_transcript` dict after Phase 2b (phases 1, 2a, 2b recorded,
in insertion order), as serialized into the Synthesis prompt. -/
def transcript3Of (env : Env) (qc : QueryContext) (challenges : Json)
    (rebuttals : List (String × Json)) : List (String × Json) :=
  [(("phase_1_opening_statements"), Json.obj (openingOf env qc)),
   (("phase_2a_challenges"), challenges),
   (("phase_2b_rebuttals"), Json.obj rebuttals)]

/-- The raw Aggregator-Judge response text (`final_answer_str`), where `kf`
is the chat number after the Rebuttal phase. -/
def judgeRawOf (env : Env) (qc : QueryContext) (challenges : Json)
    (rebuttals : List (String × Json)) (kf : Nat) : String :=
  env.resp kf Role.aggregatorJudge
    (judgePrompt qc.question (Json.obj (transcript3Of env qc challenges rebuttals)))

/-- The `final_answer` value of Phase 3 (orchestrator.py lines 160-164): the
decoded Judge response, or `{"final_answer": final_answer_str}` when the
decode fails. -/
def finalAnswerOf (env : Env) (qc : QueryContext) (challenges : Json)
    (rebuttals : List (String × Json)) (kf : Nat) : Json :=
  match env.loads (judgeRawOf env qc challenges rebuttals kf) with
  | some j => j
  | none => Json.obj [(("final_answer"), Json.str (judgeRawOf env qc challenges rebuttals kf))]

/-- The full `DebateOrchestrator.run_debate` (orchestrator.py lines 44-169):
Thesis, then the single Antithesis call — aborting with `abortObj` when its
response does not decode —, then the Rebuttal loop (which can raise a
`TypeError` when the decoded challenges are not a dict), then the single
Synthesis call, returning the four-phase transcript. -/
def run_debate (env : Env) (qc : QueryContext) : Except PyErr Json :=
  match env.loads (challengesStrOf env qc) with
  | none => Except.ok (abortObj (openingOf env qc))
  | some challenges =>
    match rebuttalAux env qc.question (openingOf env qc) challenges
        qc.documents 0 (qc.documents.length + 1) with
    | Except.error e => Except.error e
    | Except.ok (rebuttals, kf) =>
      Except.ok (Json.obj (transcript3Of env qc challenges rebuttals ++
        [(("phase_3_final_answer"), finalAnswerOf env qc challenges rebuttals kf)]))

/-- Discriminator used only in proofs: the value of an `answer` field sitting
first in a JSON object. -/
def answerField : Json → Option String
  | Json.obj ((k, Json.str a) :: _) => if k = ("answer") then some a else none
  | _ => none

/-- Discriminator used only in proofs: the first key of a JSON object. -/
def headKey : Json → Option String
  | Json.obj ((k, _) :: _) => some k
  | _ => none

/-- A concrete one-document query used to evaluate the model on closed
inputs. -/
def qcOne : QueryContext :=
  ⟨("q1"), ("Q?"), [⟨("d1"), ("T1")⟩], [], []⟩

/-- A concrete two-document query used to evaluate the model on closed
inputs. -/
def qcTwo : QueryContext :=
  ⟨("q2"), ("Q?"), [⟨("d1"), ("T1")⟩, ⟨("d2"), ("T2")⟩], [], []⟩

/-- A concrete decode table modeling `json.loads` on the handful of response
texts used by the closed evaluation runs; every other text fails to decode.
The table matches what `json.loads` does on real payloads carrying these
shapes. -/
def loadsTable : String → Option Json := fun s =>
  if s = ("p1") then
    some (Json.obj [(("answer"), Json.str ("a1")), (("chain_of_thought"), Json.arr [Json.str ("c1")])])
  else if s = ("p2") then
    some (Json.obj [(("answer"), Json.str ("a2")), (("chain_of_thought"), Json.arr [Json.str ("c2")])])
  else if s = ("ch") then
    some (Json.obj [(("agent_1_challenge"), Json.str ("why"))])
  else if s = ("r1") then
    some (Json.obj [(("answer"), Json.str ("a1r")), (("chain_of_thought"), Json.arr [Json.str ("c1r")])])
  else if s = ("jj") then
    some (Json.obj [(("final_answer"), Json.str ("F"))])
  else if s = ("forty") then
    some (Json.num 42)
  else none

/-- A run in which every persona answers decodably: two Thesis responses,
a challenge set challenging seat 1 only, one rebuttal, one final answer. -/
def envHappy : Env :=
  ⟨fun k _ _ =>
    match k with
    | 0 => ("p1")
    | 1 => ("p2")
    | 2 => ("ch")
    | 3 => ("r1")
    | _ => ("jj"),
   loadsTable⟩

/-- A run identical to `envHappy` except that the Aggregator-Judge response
does not decode. -/
def envJudgeFail : Env :=
  ⟨fun k _ _ =>
    match k with
    | 0 => ("p1")
    | 1 => ("p2")
    | 2 => ("ch")
    | 3 => ("r1")
    | _ => ("jraw"),
   loadsTable⟩

/-- A run in which the Devil's Advocate response does not decode at all. -/
def envAbort : Env :=
  ⟨fun k _ _ =>
    match k with
    | 0 => ("p1")
    | 1 => ("p2")
    | _ => ("nochance"),
   loadsTable⟩

/-- A run in which exactly the first Thesis response is unparsable. -/
def envThesisFail : Env :=
  ⟨fun k _ _ =>
    match k with
    | 0 => ("garbled")
    | 1 => ("p2")
    | 2 => ("ch")
    | 3 => ("r1")
    | _ => ("jj"),
   loadsTable⟩

/-- A run identical to `envHappy` except that the single rebuttal response
(chat 3, the challenged seat's Proponent call) does not decode. -/
def envRebuttalFail : Env :=
  ⟨fun k _ _ =>
    match k with
    | 0 => ("p1")
    | 1 => ("p2")
    | 2 => ("ch")
    | 3 => ("rbad")
    | _ => ("jj"),
   loadsTable⟩

/-- A run in which the Devil's Advocate response decodes to valid JSON that
is not a mapping (the number 42, as `json.loads("42")` yields). -/
def envNonMapping : Env :=
  ⟨fun k _ _ =>
    match k with
    | 0 => ("p1")
    | _ => ("forty"),
   loadsTable⟩

/-- The decoded challenge set of the `envHappy` run. -/
def happyChallenges : Json :=
  Json.obj [(("agent_1_challenge"), Json.str ("why"))]

/-- The rebuttals dict of the `envHappy` run (seat 1 challenged, seat 2 not). -/
def happyRebuttals : List (String × Json) :=
  [(("agent_1"), Json.obj [(("answer"), Json.str ("a1r")),
    (("chain_of_thought"), Json.arr [Json.str ("c1r")])])]

/-- The final-answer value of the `envHappy` run. -/
def happyFinal : Json :=
  Json.obj [(("final_answer"), Json.str ("F"))]

/-- The full transcript entry list of the `envHappy` run. -/
def happyEntries : List (String × Json) :=
  transcript3Of envHappy qcTwo happyChallenges happyRebuttals ++
    [(("phase_3_final_answer"), happyFinal)]

/-- A response oracle extensionally equal to `envHappy`'s but built from a
syntactically different match, for exercising determinism. -/
def envHappyTwin : Env :=
  ⟨fun k _ _ =>
    match k with
    | 0 => ("p1")
    | 1 => ("p2")
    | 2 => ("ch")
    | 3 => ("r1")
    | n + 4 =>
      match n with
      | _ => ("jj"),
   loadsTable⟩

/-! Helper lemmas about the phase executors. -/

theorem thesisAux_length (env : Env) (q : String) (docs : List Document) :
    ∀ i, (thesisAux env q docs i).length = docs.length := by
  induction docs with
  | nil => intro i; rfl
  | cons d rest ih => intro i; simp [thesisAux, ih]

theorem thesisAux_get (env : Env) (q : String) (docs : List Document) :
    ∀ i j d, docs[j]? = some d →
      (thesisAux env q docs i)[j]? =
        some (agentName (i + j + 1),
          decodeOrSentinel env.loads (env.resp (i + j) Role.proponent (thesisPrompt q d))) := by
  induction docs with
  | nil => intro i j d h; simp at h
  | cons d0 rest ih =>
    intro i j d h
    cases j with
    | zero =>
      simp at h
      subst h
      simp [thesisAux]
    | succ j =>
      simp only [List.getElem?_cons_succ] at h
      have harith : i + (j + 1) = i + 1 + j := by omega
      rw [thesisAux, List.getElem?_cons_succ, harith]
      exact ih (i + 1) j d h

theorem thesisAux_keys (env : Env) (q : String) (docs : List Document) :
    ∀ i, (thesisAux env q docs i).map Prod.fst =
      (List.range docs.length).map (fun j => agentName (i + j + 1)) := by
  induction docs with
  | nil => intro i; rfl
  | cons d rest ih =>
    intro i
    show agentName (i + 1) :: (thesisAux env q rest (i + 1)).map Prod.fst = _
    rw [ih (i + 1), List.length_cons, List.range_succ_eq_map, List.map_cons, List.map_map]
    congr 1
    apply List.map_congr_left
    intro j hj
    show agentName (i + 1 + j + 1) = agentName (i + (j + 1) + 1)
    congr 1
    omega

theorem lookup_of_dictMem (key : String) (kvs : List (String × Json))
    (h : dictMem key kvs = true) : ∃ v, kvs.lookup key = some v := by
  induction kvs with
  | nil => simp [dictMem] at h
  | cons e rest ih =>
    obtain ⟨k, v⟩ := e
    by_cases hk : k = key
    · subst hk
      exact ⟨v, by simp [List.lookup]⟩
    · have h' : dictMem key rest = true := by
        simpa [dictMem, hk] using h
      obtain ⟨w, hw⟩ := ih h'
      have hb : (key == k) = false := beq_eq_false_iff_ne.mpr (Ne.symm hk)
      exact ⟨w, by simp [List.lookup, hb, hw]⟩

theorem rebuttalAux_cons (env : Env) (q : String) (os : List (String × Json))
    (c : Json) (d : Document) (rest : List Document) (i k : Nat) :
    rebuttalAux env q os c (d :: rest) i k =
      (match pyContains (agentName (i + 1) ++ ("_challenge")) c with
       | Except.error e => Except.error e
       | Except.ok false => rebuttalAux env q os c rest (i + 1) k
       | Except.ok true =>
         match pyIndex c (agentName (i + 1) ++ ("_challenge")) with
         | Except.error e => Except.error e
         | Except.ok v =>
           match rebuttalAux env q os c rest (i + 1) (k + 1) with
           | Except.error e => Except.error e
           | Except.ok (xs, kf) =>
             Except.ok ((agentName (i + 1),
               decodeOrSentinel env.loads (env.resp k Role.proponent
                 (rebuttalPrompt q d (agentName (i + 1))
                   (dictGetD os (agentName (i + 1)) (Json.obj [])) v))) :: xs, kf)) := rfl

theorem rebuttalAux_obj_ok (env : Env) (q : String) (os kvs : List (String × Json))
    (docs : List Document) :
    ∀ i k, ∃ rebs kf,
      rebuttalAux env q os (Json.obj kvs) docs i k = Except.ok (rebs, kf) := by
  induction docs with
  | nil => intro i k; exact ⟨[], k, rfl⟩
  | cons d rest ih =>
    intro i k
    cases hmem : dictMem (agentName (i + 1) ++ ("_challenge")) kvs with
    | false =>
      obtain ⟨rebs, kf, hr⟩ := ih (i + 1) k
      exact ⟨rebs, kf, by rw [rebuttalAux_cons]; simp [pyContains, hmem, hr]⟩
    | true =>
      obtain ⟨v, hv⟩ := lookup_of_dictMem _ kvs hmem
      obtain ⟨rebs, kf, hr⟩ := ih (i + 1) (k + 1)
      refine ⟨(agentName (i + 1),
        decodeOrSentinel env.loads (env.resp k Role.proponent
          (rebuttalPrompt q d (agentName (i + 1))
            (dictGetD os (agentName (i + 1)) (Json.obj [])) v))) :: rebs, kf, ?_⟩
      rw [rebuttalAux_cons]
      simp [pyContains, hmem, pyIndex, hv, hr]

theorem exists_lt_succ_shift (n i : Nat) (Q : Nat → Prop) :
    (∃ j, j < n + 1 ∧ Q (i + j)) ↔ Q (i + 0) ∨ (∃ j, j < n ∧ Q (i + 1 + j)) := by
  constructor
  · rintro ⟨j, hj, hq⟩
    cases j with
    | zero => exact Or.inl hq
    | succ j =>
      refine Or.inr ⟨j, by omega, ?_⟩
      have e : i + (j + 1) = i + 1 + j := by omega
      rw [e] at hq
      exact hq
  · rintro (hq | ⟨j, hj, hq⟩)
    · exact ⟨0, by omega, hq⟩
    · refine ⟨j + 1, by omega, ?_⟩
      have e : i + (j + 1) = i + 1 + j := by omega
      rw [e]
      exact hq

theorem rebuttalAux_keys_obj (env : Env) (q : String) (os kvs : List (String × Json))
    (docs : List Document) :
    ∀ i k rebs kf,
      rebuttalAux env q os (Json.obj kvs) docs i k = Except.ok (rebs, kf) →
      ∀ a, a ∈ rebs.map Prod.fst ↔
        ∃ j, j < docs.length ∧ (a = agentName (i + j + 1) ∧
          dictMem (agentName (i + j + 1) ++ ("_challenge")) kvs = true) := by
  induction docs with
  | nil =>
    intro i k rebs kf h a
    simp [rebuttalAux] at h
    obtain ⟨h1, h2⟩ := h
    subst h1
    simp
  | cons d rest ih =>
    intro i k rebs kf h a
    rw [rebuttalAux_cons] at h
    have hb := exists_lt_succ_shift rest.length i
      (fun m => a = agentName (m + 1) ∧
        dictMem (agentName (m + 1) ++ ("_challenge")) kvs = true)
    simp only [] at hb
    rw [List.length_cons, hb]
    cases hmem : dictMem (agentName (i + 1) ++ ("_challenge")) kvs with
    | false =>
      simp only [pyContains, hmem] at h
      rw [ih (i + 1) k rebs kf h a]
      simp [Nat.add_zero, hmem]
    | true =>
      obtain ⟨v, hv⟩ := lookup_of_dictMem _ kvs hmem
      simp only [pyContains, hmem, pyIndex, hv] at h
      rcases hr : rebuttalAux env q os (Json.obj kvs) rest (i + 1) (k + 1) with e | ⟨xs, kf'⟩
      · rw [hr] at h
        simp at h
      · rw [hr] at h
        simp at h
        obtain ⟨h1, h2⟩ := h
        subst h1
        rw [List.map_cons, List.mem_cons, ih (i + 1) (k + 1) xs kf' hr a]
        simp [Nat.add_zero, hmem]

theorem rebuttalAux_keys_sub (env : Env) (q : String) (os : List (String × Json))
    (c : Json) (docs : List Document) :
    ∀ i k rebs kf, rebuttalAux env q os c docs i k = Except.ok (rebs, kf) →
      ∀ a, a ∈ rebs.map Prod.fst → ∃ j, j < docs.length ∧ a = agentName (i + j + 1) := by
  induction docs with
  | nil =>
    intro i k rebs kf h a ha
    simp [rebuttalAux] at h
    obtain ⟨h1, h2⟩ := h
    subst h1
    simp at ha
  | cons d rest ih =>
    intro i k rebs kf h a ha
    rw [rebuttalAux_cons] at h
    rcases hpc : pyContains (agentName (i + 1) ++ ("_challenge")) c with e | b
    · rw [hpc] at h
      simp at h
    · rw [hpc] at h
      cases b with
      | false =>
        simp only [] at h
        obtain ⟨j, hj, ha'⟩ := ih (i + 1) k rebs kf h a ha
        refine ⟨j + 1, by simp only [List.length_cons]; omega, ?_⟩
        rw [ha']
        congr 1
        omega
      | true =>
        rcases hpi : pyIndex c (agentName (i + 1) ++ ("_challenge")) with e | v
        · rw [hpi] at h
          simp at h
        · rw [hpi] at h
          rcases hr : rebuttalAux env q os c rest (i + 1) (k + 1) with e | ⟨xs, kf'⟩
          · rw [hr] at h
            simp at h
          · rw [hr] at h
            simp at h
            obtain ⟨h1, h2⟩ := h
            subst h1
            simp only [List.map_cons, List.mem_cons] at ha
            rcases ha with rfl | ha
            · exact ⟨0, by simp only [List.length_cons]; omega, rfl⟩
            · obtain ⟨j, hj, ha'⟩ := ih (i + 1) (k + 1) xs kf' hr a ha
              refine ⟨j + 1, by simp only [List.length_cons]; omega, ?_⟩
              rw [ha']
              congr 1
              omega

theorem rebuttalAux_values (env : Env) (q : String) (os : List (String × Json))
    (c : Json) (docs : List Document) :
    ∀ i k rebs kf, rebuttalAux env q os c docs i k = Except.ok (rebs, kf) →
      ∀ a v, (a, v) ∈ rebs → ∃ raw, v = decodeOrSentinel env.loads raw := by
  induction docs with
  | nil =>
    intro i k rebs kf h a v hv
    simp [rebuttalAux] at h
    obtain ⟨h1, h2⟩ := h
    subst h1
    simp at hv
  | cons d rest ih =>
    intro i k rebs kf h a v hv
    rw [rebuttalAux_cons] at h
    rcases hpc : pyContains (agentName (i + 1) ++ ("_challenge")) c with e | b
    · rw [hpc] at h
      simp at h
    · rw [hpc] at h
      cases b with
      | false =>
        simp only [] at h
        exact ih (i + 1) k rebs kf h a v hv
      | true =>
        rcases hpi : pyIndex c (agentName (i + 1) ++ ("_challenge")) with e | w
        · rw [hpi] at h
          simp at h
        · rw [hpi] at h
          rcases hr : rebuttalAux env q os c rest (i + 1) (k + 1) with e | ⟨xs, kf'⟩
          · rw [hr] at h
            simp at h
          · rw [hr] at h
            simp at h
            obtain ⟨h1, h2⟩ := h
            subst h1
            rcases List.mem_cons.mp hv with heq | hmem
            · refine ⟨env.resp k Role.proponent
                (rebuttalPrompt q d (agentName (i + 1))
                  (dictGetD os (agentName (i + 1)) (Json.obj [])) w), ?_⟩
              have := congrArg Prod.snd heq
              simpa using this
            · exact ih (i + 1) (k + 1) xs kf' hr a v hmem

theorem rebuttalAux_get (env : Env) (q : String) (os : List (String × Json))
    (c : Json) (docs : List Document) :
    ∀ i k rebs kf, rebuttalAux env q os c docs i k = Except.ok (rebs, kf) →
      ∀ m a v, rebs[m]? = some (a, v) →
        ∃ j d w, docs[j]? = some d ∧ a = agentName (i + j + 1) ∧
          pyIndex c (agentName (i + j + 1) ++ ("_challenge")) = Except.ok w ∧
          v = decodeOrSentinel env.loads (env.resp (k + m) Role.proponent
            (rebuttalPrompt q d (agentName (i + j + 1))
              (dictGetD os (agentName (i + j + 1)) (Json.obj [])) w)) := by
  induction docs with
  | nil =>
    intro i k rebs kf h m a v hm
    simp [rebuttalAux] at h
    obtain ⟨h1, h2⟩ := h
    subst h1
    simp at hm
  | cons d rest ih =>
    intro i k rebs kf h m a v hm
    rw [rebuttalAux_cons] at h
    rcases hpc : pyContains (agentName (i + 1) ++ ("_challenge")) c with e | b
    · rw [hpc] at h
      simp at h
    · rw [hpc] at h
      cases b with
      | false =>
        simp only [] at h
        obtain ⟨j, d', w, hj, ha, hpi, hv⟩ := ih (i + 1) k rebs kf h m a v hm
        have e2 : i + (j + 1) + 1 = i + 1 + j + 1 := by omega
        refine ⟨j + 1, d', w, ?_, ?_, ?_, ?_⟩
        · rw [List.getElem?_cons_succ]
          exact hj
        · rw [e2]
          exact ha
        · rw [e2]
          exact hpi
        · rw [e2]
          exact hv
      | true =>
        rcases hpi0 : pyIndex c (agentName (i + 1) ++ ("_challenge")) with e | w0
        · rw [hpi0] at h
          simp at h
        · rw [hpi0] at h
          rcases hrec : rebuttalAux env q os c rest (i + 1) (k + 1) with e | ⟨xs, kf'⟩
          · rw [hrec] at h
            simp at h
          · rw [hrec] at h
            simp at h
            obtain ⟨h1, h2⟩ := h
            subst h1
            cases m with
            | zero =>
              rw [List.getElem?_cons_zero] at hm
              injection hm with hav
              rw [Prod.mk.injEq] at hav
              obtain ⟨ha', hv'⟩ := hav
              refine ⟨0, d, w0, by rw [List.getElem?_cons_zero], ha'.symm, hpi0, hv'.symm⟩
            | succ m' =>
              rw [List.getElem?_cons_succ] at hm
              obtain ⟨j, d', w, hj, ha, hpi, hv⟩ := ih (i + 1) (k + 1) xs kf' hrec m' a v hm
              have e2 : i + (j + 1) + 1 = i + 1 + j + 1 := by omega
              have e3 : k + (m' + 1) = k + 1 + m' := by omega
              refine ⟨j + 1, d', w, ?_, ?_, ?_, ?_⟩
              · rw [List.getElem?_cons_succ]
                exact hj
              · rw [e2]
                exact ha
              · rw [e2]
                exact hpi
              · rw [e2, e3]
                exact hv

theorem run_debate_abort (env : Env) (qc : QueryContext)
    (h : env.loads (challengesStrOf env qc) = none) :
    run_debate env qc = Except.ok (abortObj (openingOf env qc)) := by
  unfold run_debate
  rw [h]

theorem run_debate_complete (env : Env) (qc : QueryContext) (c : Json)
    (rebs : List (String × Json)) (kf : Nat)
    (hc : env.loads (challengesStrOf env qc) = some c)
    (hr : rebuttalAux env qc.question (openingOf env qc) c qc.documents 0
      (qc.documents.length + 1) = Except.ok (rebs, kf)) :
    run_debate env qc = Except.ok (Json.obj (transcript3Of env qc c rebs ++
      [(("phase_3_final_answer"), finalAnswerOf env qc c rebs kf)])) := by
  simp only [run_debate, hc, hr]

theorem run_debate_error (env : Env) (qc : QueryContext) (c : Json) (e : PyErr)
    (hc : env.loads (challengesStrOf env qc) = some c)
    (hr : rebuttalAux env qc.question (openingOf env qc) c qc.documents 0
      (qc.documents.length + 1) = Except.error e) :
    run_debate env qc = Except.error e := by
  simp only [run_debate, hc, hr]

theorem answerField_sentinel (raw : String) :
    answerField (sentinel raw) = some ("JSON PARSE ERROR") := rfl

theorem loadsTable_not_sentinel : ∀ s jv, loadsTable s = some jv → jv ≠ sentinel s := by
  intro s jv h hcon
  rw [hcon] at h
  unfold loadsTable at h
  split_ifs at h
  all_goals first
    | exact Option.noConfusion h
    | (injection h with h7
       have hA := congrArg answerField h7
       rw [answerField_sentinel] at hA
       simp [answerField] at hA)

/-- C3: when the Antithesis decode fails, the returned result has `error` set
to the exact message, carries no `phase_2b_rebuttals` and no
`phase_3_final_answer` key (neither at top level nor inside the partial
transcript), and its `phase_1_opening_statements` is present and equal to the
mapping the Thesis phase produced. -/
theorem abort_result_shape (env : Env) (qc : QueryContext)
    (h : env.loads (challengesStrOf env qc) = none) :
    ∃ entries, run_debate env qc = Except.ok (Json.obj entries) ∧
      entries.lookup ("error") =
        some (Json.str ("Failed to parse Devil's Advocate challenges.")) ∧
      entries.lookup ("phase_2b_rebuttals") = none ∧
      entries.lookup ("phase_3_final_answer") = none ∧
      ∃ tr, entries.lookup ("transcript") = some (Json.obj tr) ∧
        tr.lookup ("phase_2b_rebuttals") = none ∧
        tr.lookup ("phase_3_final_answer") = none ∧
        tr.lookup ("phase_1_opening_statements") = some (Json.obj (openingOf env qc)) := by
  refine ⟨[(("error"), Json.str ("Failed to parse Devil's Advocate challenges.")),
    (("transcript"), Json.obj [(("phase_1_opening_statements"),
      Json.obj (openingOf env qc))])],
    ?_, rfl, rfl, rfl,
    ⟨[(("phase_1_opening_statements"), Json.obj (openingOf env qc))], rfl, rfl, rfl, rfl⟩⟩
  rw [run_debate_abort env qc h]
  rfl

/-- Witness for `abort_result_shape`: the concrete run `envAbort` on `qcTwo`,
whose Devil's Advocate response does not decode. -/
theorem abort_result_shape_witness :
    envAbort.loads (challengesStrOf envAbort qcTwo) = none ∧
    (∃ entries, run_debate envAbort qcTwo = Except.ok (Json.obj entries) ∧
      entries.lookup ("error") =
        some (Json.str ("Failed to parse Devil's Advocate challenges.")) ∧
      entries.lookup ("phase_2b_rebuttals") = none ∧
      entries.lookup ("phase_3_final_answer") = none ∧
      ∃ tr, entries.lookup ("transcript") = some (Json.obj tr) ∧
        tr.lookup ("phase_2b_rebuttals") = none ∧
        tr.lookup ("phase_3_final_answer") = none ∧
        tr.lookup ("phase_1_opening_statements") =
          some (Json.obj (openingOf envAbort qcTwo))) :=
  ⟨rfl, abort_result_shape envAbort qcTwo rfl⟩

/-- C7: when the Aggregator-Judge response fails to decode, `run_debate`
stores `{final_answer: raw}` with the raw response text verbatim, raises
nothing, and still returns a completed transcript containing
`phase_3_final_answer`. -/
theorem judge_decode_failure_recovery (env : Env) (qc : QueryContext) (c : Json)
    (rebs : List (String × Json)) (kf : Nat)
    (hc : env.loads (challengesStrOf env qc) = some c)
    (hr : rebuttalAux env qc.question (openingOf env qc) c qc.documents 0
      (qc.documents.length + 1) = Except.ok (rebs, kf))
    (hj : env.loads (judgeRawOf env qc c rebs kf) = none) :
    run_debate env qc = Except.ok (Json.obj (transcript3Of env qc c rebs ++
      [(("phase_3_final_answer"),
        Json.obj [(("final_answer"), Json.str (judgeRawOf env qc c rebs kf))])])) := by
  rw [run_debate_complete env qc c rebs kf hc hr]
  unfold finalAnswerOf
  rw [hj]

/-- Witness for `judge_decode_failure_recovery`: the concrete run
`envJudgeFail` on `qcTwo`, identical to the happy run except that the Judge
response `jraw` does not decode. -/
theorem judge_decode_failure_recovery_witness :
    envJudgeFail.loads (challengesStrOf envJudgeFail qcTwo) = some happyChallenges ∧
    rebuttalAux envJudgeFail qcTwo.question (openingOf envJudgeFail qcTwo)
      happyChallenges qcTwo.documents 0 (qcTwo.documents.length + 1) =
      Except.ok (happyRebuttals, 4) ∧
    envJudgeFail.loads (judgeRawOf envJudgeFail qcTwo happyChallenges happyRebuttals 4) = none ∧
    run_debate envJudgeFail qcTwo =
      Except.ok (Json.obj (transcript3Of envJudgeFail qcTwo happyChallenges happyRebuttals ++
        [(("phase_3_final_answer"),
          Json.obj [(("final_answer"),
            Json.str (judgeRawOf envJudgeFail qcTwo happyChallenges happyRebuttals 4))])])) :=
  ⟨rfl, rfl, rfl,
    judge_decode_failure_recovery envJudgeFail qcTwo happyChallenges happyRebuttals 4 rfl rfl rfl⟩

/-- C5: if every Proponent and Judge response decodes and the Challenger
response decodes to a mapping, the returned transcript has exactly the four
phase fields, in phase order, and no `error` field. -/
theorem all_valid_full_transcript (env : Env) (qc : QueryContext)
    (hprop : ∀ k p, (env.loads (env.resp k Role.proponent p)).isSome = true)
    (hjudge : ∀ k p, (env.loads (env.resp k Role.aggregatorJudge p)).isSome = true)
    (kvs : List (String × Json))
    (hchal : env.loads (challengesStrOf env qc) = some (Json.obj kvs)) :
    ∃ entries, run_debate env qc = Except.ok (Json.obj entries) ∧
      entries.map Prod.fst = [("phase_1_opening_statements"), ("phase_2a_challenges"),
        ("phase_2b_rebuttals"), ("phase_3_final_answer")] ∧
      entries.lookup ("error") = none := by
  obtain ⟨rebs, kf, hr⟩ := rebuttalAux_obj_ok env qc.question (openingOf env qc) kvs
    qc.documents 0 (qc.documents.length + 1)
  exact ⟨transcript3Of env qc (Json.obj kvs) rebs ++
      [(("phase_3_final_answer"), finalAnswerOf env qc (Json.obj kvs) rebs kf)],
    run_debate_complete env qc (Json.obj kvs) rebs kf hchal hr, rfl, rfl⟩

/-- Witness for `all_valid_full_transcript`: the concrete run `envHappy` on
`qcTwo`, in which every persona response decodes. -/
theorem all_valid_full_transcript_witness :
    envHappy.loads (challengesStrOf envHappy qcTwo) =
      some (Json.obj [(("agent_1_challenge"), Json.str ("why"))]) ∧
    (∃ entries, run_debate envHappy qcTwo = Except.ok (Json.obj entries) ∧
      entries.map Prod.fst = [("phase_1_opening_statements"), ("phase_2a_challenges"),
        ("phase_2b_rebuttals"), ("phase_3_final_answer")] ∧
      entries.lookup ("error") = none) :=
  ⟨rfl, all_valid_full_transcript envHappy qcTwo
    (fun k p => by
      match k with
      | 0 => rfl
      | 1 => rfl
      | 2 => rfl
      | 3 => rfl
      | n + 4 => rfl)
    (fun k p => by
      match k with
      | 0 => rfl
      | 1 => rfl
      | 2 => rfl
      | 3 => rfl
      | n + 4 => rfl)
    [(("agent_1_challenge"), Json.str ("why"))] rfl⟩

/-- C1 counterexample: the Devil's Advocate response decodes to valid JSON
that is not a mapping (the number 42).  Contrary to the claim, the debate
does not abort (the abort record is an `Except.ok` value, but the run ends
in an uncaught `TypeError` raised by `challenge_key not in challenges` on an
integer), and it does not continue to completion either. -/
theorem abort_condition_counterexample :
    envNonMapping.loads (challengesStrOf envNonMapping qcOne) = some (Json.num 42) ∧
    run_debate envNonMapping qcOne = Except.error PyErr.typeError :=
  ⟨rfl, rfl⟩

/-- C1 (amended): `run_debate` returns the abort record if and only if the
Challenger response is not decodable as JSON at all (`json.loads` raises);
and whenever the response decodes to a mapping, the debate continues to
completion (all four phase fields, in order), whatever the other decode
outcomes are. -/
theorem abort_iff_challenger_undecodable (env : Env) (qc : QueryContext) :
    (run_debate env qc = Except.ok (abortObj (openingOf env qc)) ↔
      env.loads (challengesStrOf env qc) = none) ∧
    (∀ kvs, env.loads (challengesStrOf env qc) = some (Json.obj kvs) →
      ∃ entries, run_debate env qc = Except.ok (Json.obj entries) ∧
        entries.map Prod.fst = [("phase_1_opening_statements"), ("phase_2a_challenges"),
          ("phase_2b_rebuttals"), ("phase_3_final_answer")]) := by
  constructor
  · constructor
    · intro habort
      rcases hl : env.loads (challengesStrOf env qc) with _ | c
      · rfl
      · exfalso
        rcases hr : rebuttalAux env qc.question (openingOf env qc) c qc.documents 0
            (qc.documents.length + 1) with e | ⟨rebs, kf⟩
        · rw [run_debate_error env qc c e hl hr] at habort
          exact Except.noConfusion habort
        · rw [run_debate_complete env qc c rebs kf hl hr] at habort
          injection habort with h2
          have h3 := congrArg headKey h2
          simp [transcript3Of, abortObj, headKey] at h3
    · intro hnone
      exact run_debate_abort env qc hnone
  · intro kvs hchal
    obtain ⟨rebs, kf, hr⟩ := rebuttalAux_obj_ok env qc.question (openingOf env qc) kvs
      qc.documents 0 (qc.documents.length + 1)
    exact ⟨transcript3Of env qc (Json.obj kvs) rebs ++
        [(("phase_3_final_answer"), finalAnswerOf env qc (Json.obj kvs) rebs kf)],
      run_debate_complete env qc (Json.obj kvs) rebs kf hchal hr, rfl⟩

/-- Witness for `abort_iff_challenger_undecodable`: on `envAbort` (whose
Challenger response does not decode) the run returns exactly the abort
record. -/
theorem abort_iff_challenger_undecodable_witness :
    envAbort.loads (challengesStrOf envAbort qcTwo) = none ∧
    run_debate envAbort qcTwo = Except.ok (abortObj (openingOf envAbort qcTwo)) :=
  ⟨rfl, (abort_iff_challenger_undecodable envAbort qcTwo).1.mpr rfl⟩

/-- C2 counterexample: on a run whose first Thesis response `garbled` does
not decode, the stored seat value is the code's sentinel, whose `answer`
string is `JSON PARSE ERROR` (with spaces) — not the record with answer
`JSON_PARSE_ERROR` (with underscores) stated by the claim. -/
theorem sentinel_string_counterexample :
    (openingOf envThesisFail qcTwo)[0]? = some (agentName 1, sentinel ("garbled")) ∧
    envThesisFail.loads ("garbled") = none ∧
    sentinel ("garbled") ≠ Json.obj [(("answer"), Json.str ("JSON_PARSE_ERROR")),
      (("chain_of_thought"), Json.arr [Json.str ("garbled")])] :=
  ⟨rfl, rfl, fun h => absurd (congrArg answerField h) (by decide)⟩

/-- C2 (amended): for every Thesis persona response whose decode fails, the
stored seat value is exactly `{"answer": "JSON PARSE ERROR",
"chain_of_thought": [raw]}` with the raw response text unmodified; and the
`m`-th value stored by the Rebuttal loop is the decode-or-sentinel of that
seat's actual Proponent response — chat number `N + 1 + m`, issued with that
seat's actual rebuttal prompt — so a failing rebuttal decode stores exactly
the sentinel of that seat's unmodified response text.  No decode failure
escapes as an error. -/
theorem sentinel_substitution_on_decode_failure (env : Env) (qc : QueryContext) :
    (∀ i d, qc.documents[i]? = some d →
      env.loads (env.resp i Role.proponent (thesisPrompt qc.question d)) = none →
      (openingOf env qc)[i]? = some (agentName (i + 1),
        sentinel (env.resp i Role.proponent (thesisPrompt qc.question d)))) ∧
    (∀ c rebs kf,
      rebuttalAux env qc.question (openingOf env qc) c qc.documents 0
        (qc.documents.length + 1) = Except.ok (rebs, kf) →
      ∀ m a v, rebs[m]? = some (a, v) →
        ∃ j d w, qc.documents[j]? = some d ∧ a = agentName (j + 1) ∧
          pyIndex c (agentName (j + 1) ++ ("_challenge")) = Except.ok w ∧
          v = decodeOrSentinel env.loads
            (env.resp (qc.documents.length + 1 + m) Role.proponent
              (rebuttalPrompt qc.question d (agentName (j + 1))
                (dictGetD (openingOf env qc) (agentName (j + 1)) (Json.obj [])) w)) ∧
          (env.loads (env.resp (qc.documents.length + 1 + m) Role.proponent
              (rebuttalPrompt qc.question d (agentName (j + 1))
                (dictGetD (openingOf env qc) (agentName (j + 1)) (Json.obj [])) w)) = none →
            v = sentinel (env.resp (qc.documents.length + 1 + m) Role.proponent
              (rebuttalPrompt qc.question d (agentName (j + 1))
                (dictGetD (openingOf env qc) (agentName (j + 1)) (Json.obj [])) w)))) := by
  constructor
  · intro i d hd hfail
    have hg := thesisAux_get env qc.question qc.documents 0 i d hd
    rw [Nat.zero_add] at hg
    simp only [decodeOrSentinel, hfail] at hg
    exact hg
  · intro c rebs kf hr m a v hm
    obtain ⟨j, d, w, hj, ha, hpi, hv⟩ := rebuttalAux_get env qc.question (openingOf env qc) c
      qc.documents 0 (qc.documents.length + 1) rebs kf hr m a v hm
    rw [Nat.zero_add] at ha hpi hv
    refine ⟨j, d, w, hj, ha, hpi, hv, ?_⟩
    intro hfail
    rw [hv]
    simp [decodeOrSentinel, hfail]

/-- Witness for `sentinel_substitution_on_decode_failure`: seat 1 of
`envThesisFail` on `qcTwo` stores the Thesis sentinel of its unparsable raw
response; and in `envRebuttalFail` the challenged seat's rebuttal response
`rbad` (chat `N + 1 + 0 = 3`) does not decode and is stored as exactly its
sentinel. -/
theorem sentinel_substitution_on_decode_failure_witness :
    qcTwo.documents[0]? = some (⟨("d1"), ("T1")⟩ : Document) ∧
    envThesisFail.loads (envThesisFail.resp 0 Role.proponent
      (thesisPrompt qcTwo.question ⟨("d1"), ("T1")⟩)) = none ∧
    (openingOf envThesisFail qcTwo)[0]? = some (agentName 1,
      sentinel (envThesisFail.resp 0 Role.proponent
        (thesisPrompt qcTwo.question ⟨("d1"), ("T1")⟩))) ∧
    rebuttalAux envRebuttalFail qcTwo.question (openingOf envRebuttalFail qcTwo)
      happyChallenges qcTwo.documents 0 (qcTwo.documents.length + 1) =
      Except.ok ([(agentName 1, sentinel ("rbad"))], 4) ∧
    envRebuttalFail.loads ("rbad") = none ∧
    (∃ j d w, qcTwo.documents[j]? = some d ∧ agentName 1 = agentName (j + 1) ∧
      pyIndex happyChallenges (agentName (j + 1) ++ ("_challenge")) = Except.ok w ∧
      sentinel ("rbad") = decodeOrSentinel envRebuttalFail.loads
        (envRebuttalFail.resp (qcTwo.documents.length + 1 + 0) Role.proponent
          (rebuttalPrompt qcTwo.question d (agentName (j + 1))
            (dictGetD (openingOf envRebuttalFail qcTwo) (agentName (j + 1)) (Json.obj [])) w)) ∧
      (envRebuttalFail.loads (envRebuttalFail.resp (qcTwo.documents.length + 1 + 0)
          Role.proponent (rebuttalPrompt qcTwo.question d (agentName (j + 1))
            (dictGetD (openingOf envRebuttalFail qcTwo) (agentName (j + 1)) (Json.obj [])) w)) = none →
        sentinel ("rbad") = sentinel (envRebuttalFail.resp (qcTwo.documents.length + 1 + 0)
          Role.proponent (rebuttalPrompt qcTwo.question d (agentName (j + 1))
            (dictGetD (openingOf envRebuttalFail qcTwo) (agentName (j + 1)) (Json.obj [])) w)))) :=
  ⟨rfl, rfl,
    (sentinel_substitution_on_decode_failure envThesisFail qcTwo).1 0
      ⟨("d1"), ("T1")⟩ rfl rfl,
    rfl, rfl,
    (sentinel_substitution_on_decode_failure envRebuttalFail qcTwo).2 happyChallenges
      [(agentName 1, sentinel ("rbad"))] 4 rfl 0 (agentName 1) (sentinel ("rbad")) rfl⟩

/-- C4: the Thesis phase produces exactly `N` entries keyed `agent_1` through
`agent_N` in document order, regardless of decode outcomes; each seat stores
its decoded response or the sentinel, so one seat's failure never prevents
the others; and when exactly one seat's response is unparsable (and the
decoder is parser-like, never decoding a text to the sentinel of that very
text), exactly one seat stores the sentinel substitution. -/
theorem thesis_seat_coverage (env : Env) (qc : QueryContext) :
    ((openingOf env qc).map Prod.fst =
      (List.range qc.documents.length).map (fun i => agentName (i + 1))) ∧
    ((openingOf env qc).length = qc.documents.length) ∧
    (∀ i d, qc.documents[i]? = some d →
      (openingOf env qc)[i]? = some (agentName (i + 1),
        decodeOrSentinel env.loads (env.resp i Role.proponent (thesisPrompt qc.question d)))) ∧
    (∀ i0 d0, qc.documents[i0]? = some d0 →
      env.loads (env.resp i0 Role.proponent (thesisPrompt qc.question d0)) = none →
      (∀ j dj, qc.documents[j]? = some dj → j ≠ i0 →
        (env.loads (env.resp j Role.proponent (thesisPrompt qc.question dj))).isSome = true) →
      (∀ s jv, env.loads s = some jv → jv ≠ sentinel s) →
      ∃! i, ∃ d, qc.documents[i]? = some d ∧
        (openingOf env qc)[i]? = some (agentName (i + 1),
          sentinel (env.resp i Role.proponent (thesisPrompt qc.question d)))) := by
  have hget : ∀ i d, qc.documents[i]? = some d →
      (openingOf env qc)[i]? = some (agentName (i + 1),
        decodeOrSentinel env.loads (env.resp i Role.proponent (thesisPrompt qc.question d))) := by
    intro i d hd
    have hg := thesisAux_get env qc.question qc.documents 0 i d hd
    rw [Nat.zero_add] at hg
    exact hg
  refine ⟨?_, thesisAux_length env qc.question qc.documents 0, hget, ?_⟩
  · unfold openingOf
    rw [thesisAux_keys env qc.question qc.documents 0]
    apply List.map_congr_left
    intro j hj
    rw [Nat.zero_add]
  · intro i0 d0 hd0 hfail hothers hpl
    refine ⟨i0, ⟨d0, hd0, ?_⟩, ?_⟩
    · have hg := hget i0 d0 hd0
      simp only [decodeOrSentinel, hfail] at hg
      exact hg
    · rintro i ⟨d, hd, hsent⟩
      by_contra hne
      have hs := hothers i d hd hne
      obtain ⟨jv, hjv⟩ := Option.isSome_iff_exists.mp hs
      have hgi := hget i d hd
      rw [hgi] at hsent
      injection hsent with hpair
      rw [Prod.mk.injEq] at hpair
      obtain ⟨-, hsnd⟩ := hpair
      simp only [decodeOrSentinel, hjv] at hsnd
      exact hpl _ jv hjv hsnd

/-- Witness for `thesis_seat_coverage`: on `envThesisFail` (only the first
Thesis response unparsable) over two documents, the seat keys are
`agent_1, agent_2` and exactly one seat stores the sentinel substitution. -/
theorem thesis_seat_coverage_witness :
    qcTwo.documents[0]? = some (⟨("d1"), ("T1")⟩ : Document) ∧
    envThesisFail.loads (envThesisFail.resp 0 Role.proponent
      (thesisPrompt qcTwo.question ⟨("d1"), ("T1")⟩)) = none ∧
    (openingOf envThesisFail qcTwo).map Prod.fst =
      (List.range qcTwo.documents.length).map (fun i => agentName (i + 1)) ∧
    (∃! i, ∃ d, qcTwo.documents[i]? = some d ∧
      (openingOf envThesisFail qcTwo)[i]? = some (agentName (i + 1),
        sentinel (envThesisFail.resp i Role.proponent (thesisPrompt qcTwo.question d)))) :=
  ⟨rfl, rfl, (thesis_seat_coverage envThesisFail qcTwo).1,
    (thesis_seat_coverage envThesisFail qcTwo).2.2.2 0 ⟨("d1"), ("T1")⟩ rfl rfl
      (fun j dj hdj hne => by
        match j, hdj with
        | 0, _ => exact absurd rfl hne
        | 1, _ => rfl
        | n + 2, h => exact Option.noConfusion h)
      loadsTable_not_sentinel⟩

/-- C6: under a decoded challenge mapping, the domain of
`phase_2b_rebuttals` is exactly the set of seats `agent_i` whose key
`agent_i_challenge` is present in the ChallengeSet. -/
theorem rebuttal_domain_matches_challenges (env : Env) (qc : QueryContext)
    (kvs : List (String × Json))
    (hchal : env.loads (challengesStrOf env qc) = some (Json.obj kvs)) :
    ∃ entries rebs, run_debate env qc = Except.ok (Json.obj entries) ∧
      entries.lookup ("phase_2b_rebuttals") = some (Json.obj rebs) ∧
      ∀ a, a ∈ rebs.map Prod.fst ↔
        ∃ i, i < qc.documents.length ∧ (a = agentName (i + 1) ∧
          dictMem (agentName (i + 1) ++ ("_challenge")) kvs = true) := by
  obtain ⟨rebs, kf, hr⟩ := rebuttalAux_obj_ok env qc.question (openingOf env qc) kvs
    qc.documents 0 (qc.documents.length + 1)
  refine ⟨transcript3Of env qc (Json.obj kvs) rebs ++
      [(("phase_3_final_answer"), finalAnswerOf env qc (Json.obj kvs) rebs kf)], rebs,
    run_debate_complete env qc (Json.obj kvs) rebs kf hchal hr, rfl, ?_⟩
  intro a
  have hk := rebuttalAux_keys_obj env qc.question (openingOf env qc) kvs qc.documents 0
    (qc.documents.length + 1) rebs kf hr a
  simpa only [Nat.zero_add] using hk

/-- Witness for `rebuttal_domain_matches_challenges`: on `envHappy` only
seat 1 is challenged, so the rebuttal keys are exactly the seats whose
challenge key is present. -/
theorem rebuttal_domain_matches_challenges_witness :
    envHappy.loads (challengesStrOf envHappy qcTwo) =
      some (Json.obj [(("agent_1_challenge"), Json.str ("why"))]) ∧
    (∃ entries rebs, run_debate envHappy qcTwo = Except.ok (Json.obj entries) ∧
      entries.lookup ("phase_2b_rebuttals") = some (Json.obj rebs) ∧
      ∀ a, a ∈ rebs.map Prod.fst ↔
        ∃ i, i < qcTwo.documents.length ∧ (a = agentName (i + 1) ∧
          dictMem (agentName (i + 1) ++ ("_challenge"))
            [(("agent_1_challenge"), Json.str ("why"))] = true)) :=
  ⟨rfl, rebuttal_domain_matches_challenges envHappy qcTwo
    [(("agent_1_challenge"), Json.str ("why"))] rfl⟩

/-- C8: in every completed (non-aborted) run, the returned
`phase_1_opening_statements` is exactly the mapping produced by the Thesis
phase — the Rebuttal phase stores its results only in the separate
`phase_2b_rebuttals` mapping and mutates no opening statement. -/
theorem opening_statements_immutable (env : Env) (qc : QueryContext)
    (t : Json) (entries : List (String × Json))
    (h : run_debate env qc = Except.ok t) (ht : t = Json.obj entries)
    (hne : entries.lookup ("error") = none) :
    entries.lookup ("phase_1_opening_statements") = some (Json.obj (openingOf env qc)) := by
  subst ht
  rcases hl : env.loads (challengesStrOf env qc) with _ | c
  · rw [run_debate_abort env qc hl] at h
    injection h with h2
    unfold abortObj at h2
    injection h2 with h3
    rw [← h3] at hne
    simp [List.lookup] at hne
  · rcases hr : rebuttalAux env qc.question (openingOf env qc) c qc.documents 0
        (qc.documents.length + 1) with e | ⟨rebs, kf⟩
    · rw [run_debate_error env qc c e hl hr] at h
      exact Except.noConfusion h
    · rw [run_debate_complete env qc c rebs kf hl hr] at h
      injection h with h2
      injection h2 with h3
      rw [← h3]
      rfl

/-- Witness for `opening_statements_immutable`: the completed `envHappy` run
returns phase 1 exactly as the Thesis phase produced it. -/
theorem opening_statements_immutable_witness :
    run_debate envHappy qcTwo = Except.ok (Json.obj happyEntries) ∧
    happyEntries.lookup ("error") = none ∧
    happyEntries.lookup ("phase_1_opening_statements") =
      some (Json.obj (openingOf envHappy qcTwo)) :=
  ⟨rfl, rfl,
    opening_statements_immutable envHappy qcTwo (Json.obj happyEntries) happyEntries rfl rfl rfl⟩

/-- C9: `run_debate` is deterministic in the persona call outputs — two runs
over the identical QueryContext whose oracles agree on every call (position,
role, prompt) and whose decoders agree return identical transcripts. -/
theorem run_debate_deterministic (e1 e2 : Env) (qc : QueryContext)
    (hresp : ∀ k r p, e1.resp k r p = e2.resp k r p)
    (hloads : ∀ s, e1.loads s = e2.loads s) :
    run_debate e1 qc = run_debate e2 qc := by
  have he : e1 = e2 := by
    cases e1
    cases e2
    congr 1
    · funext k r p
      exact hresp k r p
    · funext s
      exact hloads s
  rw [he]

/-- Witness for `run_debate_deterministic`: `envHappy` and its syntactically
different but extensionally equal twin produce identical transcripts. -/
theorem run_debate_deterministic_witness :
    run_debate envHappy qcTwo = run_debate envHappyTwin qcTwo :=
  run_debate_deterministic envHappy envHappyTwin qcTwo
    (fun k r p => by
      match k with
      | 0 => rfl
      | 1 => rfl
      | 2 => rfl
      | 3 => rfl
      | n + 4 => rfl)
    (fun s => rfl)

/-- C10: every completed (non-aborted) transcript contains the key
`phase_2b_rebuttals`; its keys are always among `agent_1 .. agent_N`
(challenge keys naming no seat are silently ignored); and when no seat's
challenge key is present it is the empty mapping. -/
theorem rebuttal_keys_subset_invariant (env : Env) (qc : QueryContext)
    (t : Json) (entries : List (String × Json))
    (h : run_debate env qc = Except.ok t) (ht : t = Json.obj entries)
    (hne : entries.lookup ("error") = none) :
    ∃ rebs, entries.lookup ("phase_2b_rebuttals") = some (Json.obj rebs) ∧
      (∀ a, a ∈ rebs.map Prod.fst → ∃ i, i < qc.documents.length ∧ a = agentName (i + 1)) ∧
      (∀ kvs, env.loads (challengesStrOf env qc) = some (Json.obj kvs) →
        (∀ i, i < qc.documents.length →
          dictMem (agentName (i + 1) ++ ("_challenge")) kvs = false) → rebs = []) := by
  subst ht
  rcases hl : env.loads (challengesStrOf env qc) with _ | c
  · exfalso
    rw [run_debate_abort env qc hl] at h
    injection h with h2
    unfold abortObj at h2
    injection h2 with h3
    rw [← h3] at hne
    simp [List.lookup] at hne
  · rcases hr : rebuttalAux env qc.question (openingOf env qc) c qc.documents 0
        (qc.documents.length + 1) with e | ⟨rebs, kf⟩
    · rw [run_debate_error env qc c e hl hr] at h
      exact Except.noConfusion h
    · rw [run_debate_complete env qc c rebs kf hl hr] at h
      injection h with h2
      injection h2 with h3
      refine ⟨rebs, ?_, ?_, ?_⟩
      · rw [← h3]
        rfl
      · intro a ha
        obtain ⟨j, hj, ha'⟩ := rebuttalAux_keys_sub env qc.question (openingOf env qc) c
          qc.documents 0 (qc.documents.length + 1) rebs kf hr a ha
        rw [Nat.zero_add] at ha'
        exact ⟨j, hj, ha'⟩
      · intro kvs hkvs hnochal
        injection hkvs with hc
        subst hc
        have hkeys := rebuttalAux_keys_obj env qc.question (openingOf env qc) kvs
          qc.documents 0 (qc.documents.length + 1) rebs kf hr
        have hempty : rebs.map Prod.fst = [] := by
          by_contra hne2
          obtain ⟨a, ha⟩ := List.exists_mem_of_ne_nil _ hne2
          obtain ⟨j, hj, hq⟩ := (hkeys a).mp ha
          rw [Nat.zero_add] at hq
          rw [hnochal j hj] at hq
          exact Bool.noConfusion hq.2
        simpa using hempty

/-- Witness for `rebuttal_keys_subset_invariant`: the completed `envHappy`
run has its rebuttal keys among the two seats. -/
theorem rebuttal_keys_subset_invariant_witness :
    run_debate envHappy qcTwo = Except.ok (Json.obj happyEntries) ∧
    happyEntries.lookup ("error") = none ∧
    (∃ rebs, happyEntries.lookup ("phase_2b_rebuttals") = some (Json.obj rebs) ∧
      (∀ a, a ∈ rebs.map Prod.fst → ∃ i, i < qcTwo.documents.length ∧ a = agentName (i + 1)) ∧
      (∀ kvs, envHappy.loads (challengesStrOf envHappy qcTwo) = some (Json.obj kvs) →
        (∀ i, i < qcTwo.documents.length →
          dictMem (agentName (i + 1) ++ ("_challenge")) kvs = false) → rebs = [])) :=
  ⟨rfl, rfl,
    rebuttal_keys_subset_invariant envHappy qcTwo (Json.obj happyEntries) happyEntries rfl rfl rfl⟩
